import Mathlib

/-!
Verification of the DocuExtract core against its natural-language specification.

This file gives a shallow embedding, in Lean 4, of the core routines of the
DocuExtract repository (a document-intake pipeline):

* the cost model `calculateCost` (src/lib/utils.ts),
* the bulk-submission discount decision (src/app/api/extract/route.ts `PUT`
  and src/lib/extraction/extractionService.ts `batchExtract`),
* the rate-limited retry wrapper `withRateLimit`
  (src/lib/optimization/rateLimiter.ts),
* the in-memory processing queue (src/lib/queue/processingQueue.ts):
  scheduling tick, per-job retry handling, job tracking map, completion
  listeners,
* the extraction state machine `extractDocument`
  (src/lib/extraction/extractionService.ts, both variants present in the
  repository) at the level of its database status updates and its
  needs-review policy, and
* the single-document extraction API handler `POST`
  (src/app/api/extract/route.ts) with its already-COMPLETED short-circuit.

JavaScript numbers are modelled as `ℚ` (every literal appearing in the code
is a small decimal, and the properties proved here are exact arithmetic
identities), JS `Map`/`Set` as insertion-ordered lists with the
corresponding replace/skip-duplicate semantics, and fallible asynchronous
calls as `Except String`-valued data supplied by an environment.
-/

namespace DocuExtract

/-! ## Cost model — `calculateCost` (src/src/lib/utils.ts, lines 141-163)

The source:

```
const pricing = {
  'gemini-2.5-pro': { input: 1.25, output: 10.0 },
  'gemini-2.5-flash': { input: 0.30, output: 2.50 },
};
const rates = pricing[model];
let cost = (inputTokens / 1_000_000) * rates.input +
           (outputTokens / 1_000_000) * rates.output;
if (useBatchApi) { cost *= 0.5; }
return cost;
```
-/

/-- The two model tiers accepted by `calculateCost`:
`pro` = "gemini-2.5-pro" (high tier), `flash` = "gemini-2.5-flash" (low tier). -/
inductive GeminiModel where
  | pro
  | flash
deriving DecidableEq, Repr

/-- Per-1M-token USD rates. -/
structure Rates where
  input : ℚ
  output : ℚ
deriving DecidableEq, Repr

/-- The `pricing` table of `calculateCost`. -/
def pricing : GeminiModel → Rates
  | .pro => { input := 125/100, output := 10 }
  | .flash => { input := 30/100, output := 250/100 }

/-- `calculateCost(inputTokens, outputTokens, model, useBatchApi)`
from src/src/lib/utils.ts. -/
def calculateCost (inputTokens outputTokens : ℚ) (model : GeminiModel)
    (useBatchApi : Bool) : ℚ :=
  let rates := pricing model
  let cost := inputTokens / 1000000 * rates.input +
    outputTokens / 1000000 * rates.output
  if useBatchApi then cost * (1/2) else cost

/-! ## Bulk-submission discount decision

`PUT` in src/src/app/api/extract/route.ts computes
`const useBatchApi = documentIds.length > 100;` and enqueues every document
with `options: { useBatchApi }`; `batchExtract` in
src/src/lib/extraction/extractionService.ts passes
`useBatchApi: documentIds.length > 100` to each `extractDocument` call. -/

/-- `useBatchApi = documentIds.length > 100` as computed by the `PUT`
bulk-extraction handler. -/
def useBatchApiPUT (documentIds : List String) : Bool :=
  documentIds.length > 100

/-- The `useBatchApi` option passed to `extractDocument` for each document of
`batchExtract(documentIds, ...)`: one flag per document, each computed as
`documentIds.length > 100`. -/
def batchExtractFlags (documentIds : List String) : List Bool :=
  documentIds.map (fun _ => decide (documentIds.length > 100))

/-! ## Rate limiter — `withRateLimit` (src/src/lib/optimization/rateLimiter.ts)

The retry loop of `withRateLimit(fn, options)`:

```
for (let attempt = 0; attempt <= maxRetries; attempt++) {
  ... // waiting/admission only affects delays, not attempts or the outcome
  try {
    recordRequest();
    return await fn();
  } catch (error) {
    if (err.status === 429 || err.message?.includes('429')
        || err.message?.includes('rate limit')) {
      handleRateLimitError();
      if (attempt < maxRetries) { ...await delay...; continue; }
    }
    throw error;
  }
}
throw new Error('Max retries exceeded');
```

The embedding models `fn`'s behaviour on its k-th invocation as `outcomes k`
and returns the pair (number of invocations of `fn` performed, final
outcome). The waits (`delay`, admission polling) do not influence either
component and are not modelled. -/

/-- A JavaScript error as inspected by `withRateLimit`: an optional numeric
`status` field and a `message` string. -/
structure JsError where
  status : Option Nat
  message : String
deriving DecidableEq, Repr

/-- Helper for JS `String.prototype.includes`: does `pat` occur at the start
of `s`? -/
def listStartsWith : List Char → List Char → Bool
  | _, [] => true
  | [], _ :: _ => false
  | c :: cs, p :: ps => c == p && listStartsWith cs ps

/-- Helper for JS `String.prototype.includes`: does `pat` occur anywhere
inside `s`? -/
def listContainsSub : List Char → List Char → Bool
  | [], pat => listStartsWith [] pat
  | c :: cs, pat => listStartsWith (c :: cs) pat || listContainsSub cs pat

/-- JS `s.includes(pat)`. -/
def strContains (s pat : String) : Bool :=
  listContainsSub s.data pat.data

/-- The rate-limit recognition test in `withRateLimit`'s catch clause:
`err.status === 429 || err.message?.includes('429') ||
err.message?.includes('rate limit')`. -/
def isRateLimitSignal (e : JsError) : Bool :=
  e.status == some 429 || strContains e.message "429" ||
    strContains e.message "rate limit"

/-- `MAX_RETRIES` from rateLimiter.ts (the default retry budget). -/
def MAX_RETRIES : Nat := 5

/-- The `for (let attempt = 0; attempt <= maxRetries; attempt++)` loop of
`withRateLimit`. `fuel` is the number of loop iterations the `for` bound
still allows (the loop is entered with `maxRetries + 1`: attempts
`0 .. maxRetries`); when the loop exhausts its bound without returning or
throwing, control falls through to `throw new Error('Max retries exceeded')`
(the `fuel = 0` case). Returns (number of invocations of `fn` performed,
outcome). -/
def withRateLimitGo {α : Type} (outcomes : Nat → Except JsError α)
    (maxRetries : Nat) : Nat → Nat → Nat × Except JsError α
  | _attempt, 0 => (0, Except.error { status := none, message := "Max retries exceeded" })
  | attempt, fuel + 1 =>
    match outcomes attempt with
    | Except.ok v => (1, Except.ok v)
    | Except.error e =>
      if isRateLimitSignal e && decide (attempt < maxRetries) then
        let r := withRateLimitGo outcomes maxRetries (attempt + 1) fuel
        (r.1 + 1, r.2)
      else (1, Except.error e)

/-- `withRateLimit(fn, { maxRetries })` from rateLimiter.ts, projected onto
(number of invocations of `fn`, outcome). -/
def withRateLimit {α : Type} (outcomes : Nat → Except JsError α)
    (maxRetries : Nat) : Nat × Except JsError α :=
  withRateLimitGo outcomes maxRetries 0 (maxRetries + 1)

/-! ## Processing queue — src/src/lib/queue/processingQueue.ts

`ProcessingQueue` keeps `jobs : Map<string, QueueJob>`,
`pending : string[]`, `processing : Set<string>`. The runtime is
single-threaded cooperative: each queue-state mutation below happens
atomically between `await` points.

The scheduling `tick` (lines 129-145):

```
while (this.pending.length > 0 && this.processing.size < this.options.concurrency) {
  const jobId = this.pending.shift();
  ...
  this.processing.add(jobId);
  this.processJob(job);   // async dispatch
}
```

`processJob` (lines 150-187) ends every run with
`this.processing.delete(job.id)` followed by a re-`tick`; a failed attempt
with retries remaining schedules `this.pending.push(job.id); this.tick()`
via `setTimeout`. -/

/-- JS `Set.prototype.add` on an insertion-ordered list of distinct ids:
adding an id already present leaves the set unchanged. -/
def setInsert (l : List String) (x : String) : List String :=
  if x ∈ l then l else l ++ [x]

/-- The `tick` while-loop: admit head-of-pending jobs into `processing`
while the pending list is non-empty and `processing.size < concurrency`.
Returns the (pending, processing) pair after the loop. -/
def tickGo (concurrency : Nat) :
    List String → List String → List String × List String
  | [], processing => ([], processing)
  | id :: rest, processing =>
    if processing.length < concurrency then
      tickGo concurrency rest (setInsert processing id)
    else (id :: rest, processing)

/-- The scheduler-visible state of a `ProcessingQueue`: the FIFO `pending`
list and the `processing` id set. -/
structure SchedState where
  pending : List String
  processing : List String
deriving DecidableEq, Repr

/-- Run one `tick()` on a scheduler state. -/
def tickState (c : Nat) (s : SchedState) : SchedState :=
  { pending := (tickGo c s.pending s.processing).1,
    processing := (tickGo c s.pending s.processing).2 }

/-- The atomic scheduler-state mutations of processingQueue.ts, each followed
by the `tick()` the source performs at that point:
`add` = `add(id, data)` (push to pending, tick);
`requeue` = the retry `setTimeout` body (push to pending, tick);
`finish` = the tail of `processJob` (`processing.delete(id)`, tick);
`kick` = a bare `tick()` (e.g. from `start()`). -/
inductive QueueEvent where
  | add (id : String)
  | requeue (id : String)
  | finish (id : String)
  | kick
deriving DecidableEq, Repr

/-- Apply one queue event to the scheduler state. -/
def applyEvent (c : Nat) (s : SchedState) : QueueEvent → SchedState
  | .add id => tickState c { pending := s.pending ++ [id], processing := s.processing }
  | .requeue id => tickState c { pending := s.pending ++ [id], processing := s.processing }
  | .finish id => tickState c { pending := s.pending, processing := s.processing.erase id }
  | .kick => tickState c s

/-- The scheduler state of a freshly constructed queue. -/
def initialSchedState : SchedState :=
  { pending := [], processing := [] }

/-- Run a sequence of queue events from the initial state. -/
def runEvents (c : Nat) (evs : List QueueEvent) : SchedState :=
  evs.foldl (applyEvent c) initialSchedState

/-- The complete run of a job whose processor throws on every invocation
(the catch branch of `processJob`, lines 159-174, iterated until the job is
terminal). Starting from the current `retries` counter, one attempt is
performed: `job.retries++`; if `retries < maxRetries` the job is requeued
with status 'pending' after `retryDelay * retries` ms and a later attempt
runs; otherwise the job becomes 'failed' and nothing ever requeues it (the
retry `setTimeout` is the only statement that re-enters a dispatched job
into `pending`). Returns (total number of processing attempts, the list of
requeue delays in ms in order, the final status). -/
def processFailingJob (maxRetries retryDelay retries : Nat) :
    Nat × List Nat × String :=
  let r := retries + 1
  if _h : r < maxRetries then
    let rest := processFailingJob maxRetries retryDelay r
    (rest.1 + 1, retryDelay * r :: rest.2.1, rest.2.2)
  else
    (1, [], "failed")
termination_by maxRetries - retries

/-- One tracked `QueueJob` record (the fields relevant to job tracking). -/
structure QJob where
  id : String
  status : String
  retries : Nat
  maxRetries : Nat
deriving DecidableEq, Repr

/-- JS `Map.prototype.set` on an insertion-ordered association list: if the
key is present its value is replaced in place, otherwise the entry is
appended. -/
def mapSet (m : List (String × QJob)) (k : String) (v : QJob) :
    List (String × QJob) :=
  if m.any (fun p => p.1 == k) then
    m.map (fun p => if p.1 == k then (k, v) else p)
  else m ++ [(k, v)]

/-- JS `Map.prototype.get`. -/
def mapGet (m : List (String × QJob)) (k : String) : Option QJob :=
  (m.find? (fun p => p.1 == k)).map Prod.snd

/-- The job-tracking state of a `ProcessingQueue`: the `jobs` map and the
`pending` list. -/
structure TrackState where
  jobs : List (String × QJob)
  pending : List String
deriving DecidableEq, Repr

/-- `ProcessingQueue.add(id, data)` (lines 59-74): build a fresh job with
status 'pending', `retries: 0` and the queue's configured `maxRetries`, then
`this.jobs.set(id, job)` and `this.pending.push(id)`. (The `tick()` it
triggers changes only statuses of dispatched jobs, never the tracked-job
count.) -/
def addJob (maxRetries : Nat) (s : TrackState) (id : String) : TrackState :=
  let job : QJob :=
    { id := id, status := "pending", retries := 0, maxRetries := maxRetries }
  { jobs := mapSet s.jobs id job, pending := s.pending ++ [id] }

/-- `getStats().total` (lines 93-108): `this.getAllJobs().length`, the number
of entries of the tracked jobs map. -/
def getStatsTotal (s : TrackState) : Nat :=
  s.jobs.length

/-- A concrete already-completed tracked job with id "x" (for instantiating
the duplicate-`add` behaviour). -/
def jobXCompleted : QJob :=
  { id := "x", status := "completed", retries := 1, maxRetries := 3 }

/-- A concrete queue-tracking state in which job "x" is tracked as completed
and nothing is pending. -/
def trackX : TrackState :=
  { jobs := [("x", jobXCompleted)], pending := [] }

/-- The fresh job record `add("x", data)` builds on a queue configured with
`maxRetries = 3`. -/
def freshJobX : QJob :=
  { id := "x", status := "pending", retries := 0, maxRetries := 3 }

/-- The status a job carries at the end of one `processJob` attempt together
with the updated retries counter: on success 'completed'; on a thrown error
`retries++`, then 'pending' (requeued) if `retries < maxRetries`, else
'failed'. -/
def attemptOutcome (ok : Bool) (retries maxRetries : Nat) : String × Nat :=
  if ok then ("completed", retries)
  else
    let r := retries + 1
    if r < maxRetries then ("pending", r) else ("failed", r)

/-- The attempt/notification behaviour of `processJob` (lines 150-187) for a
single job: `outcomes` lists whether each successive processor invocation
succeeds, `attemptIdx`/`retries` are the current attempt number and retries
counter, and `registered` says whether an `onComplete` listener is currently
registered for the job id. At the end of every attempt the listener, if
present, is invoked with the job's current status and then removed
(`this.listeners.delete(job.id)`), so afterwards none is registered; a
further attempt runs only when the attempt ended in a requeue (status
'pending'). Returns the list of listener invocations as
(attempt index, status observed by the callback). -/
def runNotify (maxRetries : Nat) :
    List Bool → Nat → Nat → Bool → List (Nat × String)
  | [], _, _, _ => []
  | ok :: rest, attemptIdx, retries, registered =>
    let outc := attemptOutcome ok retries maxRetries
    let fired := if registered then [(attemptIdx, outc.1)] else []
    fired ++ (if outc.1 == "pending" then
        runNotify maxRetries rest (attemptIdx + 1) outc.2 false
      else [])

/-! ## Needs-review policy — src/src/lib/extraction/extractionService.ts

First variant (lines 136-139):

```
const needsReview = validationIssues.length > 0 ||
  (extractedData.confidence_scores &&
   Object.values(...).some(score => typeof score === 'number' && score < 0.7));
```

Second variant (lines 553-556):

```
const needsReview = validationIssues.length > 0 ||
  (extractedData.confidence_scores &&
   Object.values(extractedData.confidence_scores).some(score => score && score < 0.7));
```

In the second variant `score && score < 0.7` follows JS truthiness: the
number 0 (and `null`) is falsy, so the comparison is skipped for it. -/

/-- A value of `Object.values(confidence_scores)` as inspected by the
needsReview computation: a JS number, or null/undefined. -/
inductive ScoreVal where
  | num (q : ℚ)
  | null
deriving DecidableEq, Repr

/-- needsReview, first variant: an issue exists, or some numeric confidence
score is < 0.7 (`typeof score === 'number' && score < 0.7`). -/
def needsReviewV1 (validationIssues : List String)
    (scores : List ScoreVal) : Bool :=
  decide (validationIssues.length > 0) ||
    scores.any (fun s => match s with
      | .num q => decide (q < 7/10)
      | .null => false)

/-- needsReview, second variant: an issue exists, or some truthy (nonzero)
numeric confidence score is < 0.7 (`score && score < 0.7`). -/
def needsReviewV2 (validationIssues : List String)
    (scores : List ScoreVal) : Bool :=
  decide (validationIssues.length > 0) ||
    scores.any (fun s => match s with
      | .num q => decide (q ≠ 0) && decide (q < 7/10)
      | .null => false)

/-! ## Single-document extraction API — POST /api/extract
(src/src/app/api/extract/route.ts, lines 30-65)

After the configuration and body checks, the handler looks the document up;
if it is missing it answers 404; if `document.status === 'COMPLETED'` it
answers with the stored ExtractedData row ("Document already processed")
WITHOUT calling `extractDocument`; otherwise it runs
`extractDocument(documentId, { forceModel, skipClassification })` and
answers with its result (or a 500 carrying the error message). -/

/-- The fields of a Document row consulted by the POST handler. -/
structure DocumentRow where
  id : String
  status : String
deriving DecidableEq, Repr

/-- The database state visible to the POST handler: the Document found by
the requested id, and the stored ExtractedData row for it, if any. -/
structure ExtractDb (ε : Type) where
  document : Option DocumentRow
  extractedData : Option ε

/-- The possible JSON responses of the POST handler. -/
inductive PostResponse (ε ρ : Type) where
  | notFound
  | alreadyProcessed (data : Option ε)
  | extracted (result : ρ)
  | extractionError (message : String)
deriving DecidableEq, Repr

/-- The POST handler. `extractFn` abstracts
`extractDocument(documentId, { forceModel, skipClassification })`; it
returns the number of extraction-provider invocations it performs together
with its outcome. The handler returns its response and the total number of
provider invocations made while serving the request. -/
def postExtract {ε ρ : Type} (db : ExtractDb ε) (forceModel : Option String)
    (skipClassification : Bool)
    (extractFn : Option String → Bool → Nat × Except String ρ) :
    PostResponse ε ρ × Nat :=
  match db.document with
  | none => (.notFound, 0)
  | some doc =>
    if doc.status = "COMPLETED" then
      (.alreadyProcessed db.extractedData, 0)
    else
      let r := extractFn forceModel skipClassification
      match r.2 with
      | .ok v => (.extracted v, r.1)
      | .error e => (.extractionError e, r.1)

/-- A concrete COMPLETED document row. -/
def docCompleted : DocumentRow :=
  { id := "d1", status := "COMPLETED" }

/-- A concrete database state holding `docCompleted` and its stored
ExtractedData row. -/
def dbCompleted : ExtractDb String :=
  { document := some docCompleted, extractedData := some "stored-row" }

/-! ## Extraction state machine — document status updates
(src/src/lib/extraction/extractionService.ts, `extractDocument`)

Both variants of `extractDocument` follow the same skeleton: look the
document up (absent → throw before any update), update the document to
PREPROCESSING with a start timestamp, then run the pipeline inside
`try { ... } catch (error) { <mark FAILED>; throw error; }`.
The embedding records the sequence of `prisma.document.update` payloads and
the thrown/returned outcome; external effects (file access, pdf metadata,
classifier, extraction provider) are supplied by an environment. -/

/-- A `prisma.document.update` payload, restricted to the fields the
extraction pipeline writes; `none`/`false` means the field is absent from
the update. -/
structure DocUpdate where
  status : Option String
  errorMessage : Option String
  setProcessingStartedAt : Bool
  setProcessingCompletedAt : Bool
  pageCount : Option Nat
  classification : Option String
  modelUsed : Option String
deriving DecidableEq, Repr

/-- The update `{ status: 'PREPROCESSING', processingStartedAt: new Date() }`. -/
def updPreprocessing : DocUpdate :=
  ⟨some "PREPROCESSING", none, true, false, none, none, none⟩

/-- The update `{ pageCount }` (first variant only). -/
def updPageCount (pc : Nat) : DocUpdate :=
  ⟨none, none, false, false, some pc, none, none⟩

/-- The update `{ status: 'CLASSIFYING' }`. -/
def updClassifying : DocUpdate :=
  ⟨some "CLASSIFYING", none, false, false, none, none, none⟩

/-- The update `{ classification, classificationConfidence }` (the confidence
number is not tracked here). -/
def updClassification (c : String) : DocUpdate :=
  ⟨none, none, false, false, none, some c, none⟩

/-- The update `{ status: 'EXTRACTING', modelUsed: model }`. -/
def updExtracting (model : String) : DocUpdate :=
  ⟨some "EXTRACTING", none, false, false, none, none, some model⟩

/-- The update `{ status: 'COMPLETED', processingCompletedAt: new Date() }`. -/
def updCompleted : DocUpdate :=
  ⟨some "COMPLETED", none, false, true, none, none, none⟩

/-- The catch-clause update of the FIRST variant (lines 217-223):
`{ status: 'FAILED', processingCompletedAt: new Date() }` — note that no
`errorMessage` field is written. -/
def updFailedV1 : DocUpdate :=
  ⟨some "FAILED", none, false, true, none, none, none⟩

/-- The catch-clause update of the SECOND variant (lines 623-630):
`{ status: 'FAILED', errorMessage: error.message,
processingCompletedAt: new Date() }`. -/
def updFailedV2 (e : String) : DocUpdate :=
  ⟨some "FAILED", some e, false, true, none, none, none⟩

/-- `MODELS.PRO` of the Gemini client. -/
def MODELS_PRO : String := "gemini-3-pro-preview"

/-- `MODELS.FLASH` of the Gemini client. -/
def MODELS_FLASH : String := "gemini-3-flash-preview"

/-- The text-heuristic classification of the first variant (lines 84-97):
returns (classification, model). Signature/handwriting markers → MIXED on
the PRO model; under 100 characters of text → SCANNED on PRO; otherwise
TYPED on FLASH. -/
def classifyHeuristicV1 (pdfText : String) : String × String :=
  let textLower := pdfText.toLower
  let hasSignature := strContains textLower "signature" ||
    strContains textLower "signed"
  let hasHandwrittenIndicators := strContains textLower "handwritten" ||
    strContains textLower "please print"
  if hasHandwrittenIndicators || hasSignature then ("MIXED", MODELS_PRO)
  else if pdfText.length < 100 then ("SCANNED", MODELS_PRO)
  else ("TYPED", MODELS_FLASH)

/-- The external effects of the first variant's pipeline body:
`access(pdfPath)` success, `getPdfPageCount`, `extractPdfText` (used for
classification; its failure is caught), and `generateWithPdf` (the
extraction-provider call). -/
structure EnvV1 where
  fileAccessible : Bool
  pageCountResult : Except String Nat
  pdfTextResult : Except String String
  providerResult : Except String String
deriving Repr

/-- The try-block body of the first variant (lines 46-211): the document
updates it performs and its outcome. Classification failure is caught
in place (default classification TYPED, model unchanged) and is NOT fatal;
file-missing, page-count and provider failures throw. -/
def extractBodyV1 (env : EnvV1) (forceModel : Option String)
    (skipClassification : Bool) : List DocUpdate × Except String Unit :=
  if env.fileAccessible = false then
    ([], Except.error "PDF file not found")
  else
    match env.pageCountResult with
    | .error e => ([], Except.error e)
    | .ok pageCount =>
      let model0 := forceModel.getD MODELS_FLASH
      let classifyStep :=
        if skipClassification = false ∧ forceModel = none then
          match env.pdfTextResult with
          | .ok txt =>
            ([updClassification (classifyHeuristicV1 txt).1],
             (classifyHeuristicV1 txt).2)
          | .error _ => ([], model0)
        else ([], model0)
      let updates := [updPageCount pageCount, updClassifying] ++
        classifyStep.1 ++ [updExtracting classifyStep.2]
      match env.providerResult with
      | .error e => (updates, Except.error e)
      | .ok _text => (updates ++ [updCompleted], Except.ok ())

/-- `extractDocument`, first variant: the PREPROCESSING transition, then the
try-block, with the catch clause appending `updFailedV1` and rethrowing. -/
def extractDocumentV1 (docFound : Bool) (env : EnvV1)
    (forceModel : Option String) (skipClassification : Bool) :
    List DocUpdate × Except String Unit :=
  if docFound = false then ([], Except.error "Document not found")
  else
    let body := extractBodyV1 env forceModel skipClassification
    match body.2 with
    | .ok _ => (updPreprocessing :: body.1, Except.ok ())
    | .error e => (updPreprocessing :: body.1 ++ [updFailedV1], Except.error e)

/-- The external effects of the second variant's pipeline body:
`access(pdfPath)` success, `pdfToImages` (number of page images),
`classifyDocument` (type, confidence, recommendedModel — in this variant
NOT wrapped in its own try/catch), and `generateWithBase64Images`. -/
structure EnvV2 where
  fileAccessible : Bool
  pageImagesResult : Except String Nat
  classifyResult : Except String (String × ℚ × String)
  providerResult : Except String String
deriving Repr

/-- The try-block body of the second variant (lines 445-617): the document
updates it performs and its outcome. A failing `classifyDocument` call, an
empty image list, a missing file and a provider failure all throw. -/
def extractBodyV2 (env : EnvV2) (forceModel : Option String)
    (skipClassification : Bool) : List DocUpdate × Except String Unit :=
  if env.fileAccessible = false then
    ([], Except.error "PDF file not found")
  else
    match env.pageImagesResult with
    | .error e => ([], Except.error e)
    | .ok n =>
      if n = 0 then ([], Except.error "No images extracted from PDF")
      else
        let model0 := forceModel.getD MODELS_FLASH
        if skipClassification = false ∧ forceModel = none then
          match env.classifyResult with
          | .error e => ([updClassifying], Except.error e)
          | .ok c =>
            let updates := [updClassifying, updClassification c.1,
              updExtracting c.2.2]
            match env.providerResult with
            | .error e => (updates, Except.error e)
            | .ok _text => (updates ++ [updCompleted], Except.ok ())
        else
          match env.providerResult with
          | .error e => ([updClassifying, updExtracting model0], Except.error e)
          | .ok _text =>
            ([updClassifying, updExtracting model0, updCompleted], Except.ok ())

/-- `extractDocument`, second variant: the PREPROCESSING transition, then
the try-block, with the catch clause appending `updFailedV2 e` (which DOES
carry the error message) and rethrowing. -/
def extractDocumentV2 (docFound : Bool) (env : EnvV2)
    (forceModel : Option String) (skipClassification : Bool) :
    List DocUpdate × Except String Unit :=
  if docFound = false then ([], Except.error "Document not found")
  else
    let body := extractBodyV2 env forceModel skipClassification
    match body.2 with
    | .ok _ => (updPreprocessing :: body.1, Except.ok ())
    | .error e =>
      (updPreprocessing :: body.1 ++ [updFailedV2 e], Except.error e)

/-- A concrete first-variant environment whose extraction-provider call
fails. -/
def envBoomV1 : EnvV1 :=
  { fileAccessible := true, pageCountResult := Except.ok 2,
    pdfTextResult := Except.ok "hello", providerResult := Except.error "Gemini API error" }

/-- A concrete second-variant environment whose extraction-provider call
fails. -/
def envBoomV2 : EnvV2 :=
  { fileAccessible := true, pageImagesResult := Except.ok 1,
    classifyResult := Except.ok ("TYPED", 9/10, MODELS_FLASH),
    providerResult := Except.error "Gemini API error" }

end DocuExtract

namespace DocuExtract

/-- C7: for all token counts and both model tiers, the price with the bulk
discount enabled is exactly half the price without it, and the undiscounted
price is `inputTokens/1e6 * inputRate + outputTokens/1e6 * outputRate`. -/
theorem C7_bulk_discount_is_exactly_half (i o : ℚ) (hi : 0 ≤ i) (ho : 0 ≤ o)
    (m : GeminiModel) :
    calculateCost i o m true = (1/2) * calculateCost i o m false ∧
    calculateCost i o m false =
      i / 1000000 * (pricing m).input + o / 1000000 * (pricing m).output := by
  unfold calculateCost
  simp [mul_comm]

/-- Witness for C7 at the concrete input `i = 3000`, `o = 500`, tier `pro`. -/
theorem C7_bulk_discount_is_exactly_half_witness :
    calculateCost 3000 500 GeminiModel.pro true =
      (1/2) * calculateCost 3000 500 GeminiModel.pro false ∧
    calculateCost 3000 500 GeminiModel.pro false =
      3000 / 1000000 * (pricing GeminiModel.pro).input +
        500 / 1000000 * (pricing GeminiModel.pro).output :=
  C7_bulk_discount_is_exactly_half 3000 500 (by norm_num) (by norm_num)
    GeminiModel.pro

/-- C9: for every bulk submission, `useBatchApi == (N > 100)` where `N` is the
number of submitted document ids — false at `N = 100`, true at `N = 101` —
`batchExtract` passes that same flag to every per-document extraction call,
and the flag is the only trigger for the half-price cost path: with the flag
false `calculateCost` returns the undiscounted price, with the flag true it
returns exactly half of it. -/
theorem C9_useBatchApi_threshold (ids : List String) :
    useBatchApiPUT ids = decide (ids.length > 100) ∧
    useBatchApiPUT (List.replicate 100 "doc") = false ∧
    useBatchApiPUT (List.replicate 101 "doc") = true ∧
    batchExtractFlags ids = List.replicate ids.length (useBatchApiPUT ids) ∧
    (∀ i o m b, calculateCost i o m b =
      if b then calculateCost i o m false * (1/2) else calculateCost i o m false) := by
  refine ⟨rfl, by decide, by decide, ?_, ?_⟩
  · simp [batchExtractFlags, useBatchApiPUT, List.map_const]
  · intro i o m b
    cases b <;> simp [calculateCost]

/-- Helper for C2: when every invocation of `fn` throws a rate-limit error,
each remaining loop iteration consumes one attempt and the loop terminates by
rethrowing the error of the final attempt (attempt `n`). -/
theorem withRateLimitGo_all_rate_limited {α : Type}
    (outcomes : Nat → Except JsError α) (errOf : Nat → JsError) (n : Nat)
    (hthrow : ∀ k, outcomes k = Except.error (errOf k))
    (hrl : ∀ k, isRateLimitSignal (errOf k) = true) :
    ∀ d attempt, attempt + d = n →
      withRateLimitGo outcomes n attempt (d + 1) =
        (d + 1, Except.error (errOf n)) := by
  intro d
  induction d with
  | zero =>
    intro attempt h
    have h0 : attempt = n := by omega
    subst h0
    simp [withRateLimitGo, hthrow attempt]
  | succ d ih =>
    intro attempt h
    have hlt : attempt < n := by omega
    have hrec := ih (attempt + 1) (by omega)
    rw [withRateLimitGo, hthrow attempt]
    simp [hrl attempt, hlt, hrec]

/-- C2 (corrected): for every `fn` that on every invocation throws a
rate-limit error, `withRateLimit(fn, {maxRetries: n})` performs `n + 1`
attempts and then fails by rethrowing the rate-limit error of the final
attempt; the trailing `throw new Error('Max retries exceeded')` is never the
failure observed in this scenario (the loop's last iteration rethrows first). -/
theorem C2_exhausted_retries_rethrow_last_error {α : Type}
    (outcomes : Nat → Except JsError α) (errOf : Nat → JsError) (n : Nat)
    (hthrow : ∀ k, outcomes k = Except.error (errOf k))
    (hrl : ∀ k, isRateLimitSignal (errOf k) = true) :
    withRateLimit outcomes n = (n + 1, Except.error (errOf n)) :=
  withRateLimitGo_all_rate_limited outcomes errOf n hthrow hrl n 0 (by omega)

/-- Witness for C2 (corrected) at the concrete always-throwing function with
error `{status: 429, message: "got 429"}` and `maxRetries = 2`. -/
theorem C2_exhausted_retries_rethrow_last_error_witness :
    withRateLimit
        (fun _ => (Except.error { status := some 429, message := "got 429" } :
          Except JsError String)) 2 =
      (3, Except.error { status := some 429, message := "got 429" }) :=
  C2_exhausted_retries_rethrow_last_error
    (fun _ => (Except.error { status := some 429, message := "got 429" } :
      Except JsError String))
    (fun _ => ({ status := some 429, message := "got 429" } : JsError)) 2
    (fun _ => rfl) (fun _ => rfl)

/-- C2 counterexample: with `maxRetries = 1` and `fn` always throwing the
rate-limit error `{status: 429, message: "rate limit"}`, `withRateLimit`
performs 2 attempts as claimed, but the resulting failure is the rate-limit
error itself — its message is not "Max retries exceeded", refuting the
claimed failure mode. -/
theorem C2_counterexample :
    withRateLimit
        (fun _ => (Except.error { status := some 429, message := "rate limit" } :
          Except JsError String)) 1 =
      (2, Except.error { status := some 429, message := "rate limit" }) ∧
    ({ status := some 429, message := "rate limit"} : JsError).message ≠
      "Max retries exceeded" := by
  exact ⟨rfl, by decide⟩

/-- `Set.add` grows the processing set by at most one element. -/
theorem setInsert_length_le (l : List String) (x : String) :
    (setInsert l x).length ≤ l.length + 1 := by
  unfold setInsert
  split <;> simp

/-- The `tick` loop never grows `processing` beyond the concurrency limit:
its guard re-checks `processing.size < concurrency` before every admission. -/
theorem tickGo_processing_le (c : Nat) :
    ∀ p pr, pr.length ≤ c → (tickGo c p pr).2.length ≤ c := by
  intro p
  induction p with
  | nil => intro pr h; simpa [tickGo] using h
  | cons id rest ih =>
    intro pr h
    rw [tickGo]
    split
    case isTrue hlt =>
      exact ih _ (le_trans (setInsert_length_le pr id) (by omega))
    case isFalse hge => simpa using h

/-- FIFO admission: one `tick` removes some prefix of the pending list (its
first `k` entries, for some `k`) and admits exactly those ids, in order, into
the processing set. -/
theorem tickGo_fifo (c : Nat) :
    ∀ p pr, ∃ k, tickGo c p pr = (p.drop k, (p.take k).foldl setInsert pr) := by
  intro p
  induction p with
  | nil => exact fun pr => ⟨0, by simp [tickGo]⟩
  | cons id rest ih =>
    intro pr
    rw [tickGo]
    split
    case isTrue hlt =>
      obtain ⟨k, hk⟩ := ih (setInsert pr id)
      exact ⟨k + 1, by simpa using hk⟩
    case isFalse hge => exact ⟨0, by simp⟩

/-- Every atomic queue event preserves the concurrency bound. -/
theorem applyEvent_processing_le (c : Nat) (s : SchedState) (ev : QueueEvent)
    (h : s.processing.length ≤ c) :
    (applyEvent c s ev).processing.length ≤ c := by
  cases ev with
  | add id => exact tickGo_processing_le c _ _ h
  | requeue id => exact tickGo_processing_le c _ _ h
  | finish id =>
    exact tickGo_processing_le c _ _
      (le_trans (List.Sublist.length_le (List.erase_sublist id s.processing)) h)
  | kick => exact tickGo_processing_le c _ _ h

/-- The concurrency bound holds in every state reachable by queue events. -/
theorem runEvents_processing_le (c : Nat) (evs : List QueueEvent) :
    (runEvents c evs).processing.length ≤ c := by
  suffices h : ∀ s : SchedState, s.processing.length ≤ c →
      ((evs.foldl (applyEvent c) s).processing.length ≤ c) by
    exact h initialSchedState (by simp [initialSchedState])
  induction evs with
  | nil => intro s h; simpa using h
  | cons ev rest ih =>
    intro s h
    exact ih _ (applyEvent_processing_le c s ev h)

/-- C4: for every concurrency limit `c` and every sequence of queue events
starting from the empty queue, at most `c` jobs are in the processing set at
any point, and each scheduling tick admits jobs from the pending list in
FIFO order: it takes some prefix of `pending` (the first `k` ids, in order)
into `processing` and leaves exactly the remaining suffix pending. -/
theorem C4_concurrency_bound_and_fifo (c : Nat) (evs : List QueueEvent)
    (p pr : List String) :
    (runEvents c evs).processing.length ≤ c ∧
    ∃ k, tickGo c p pr = (p.drop k, (p.take k).foldl setInsert pr) :=
  ⟨runEvents_processing_le c evs, tickGo_fifo c p pr⟩

/-- Helper for C5: complete run of an always-throwing job, computed in
closed form from any starting retries counter. -/
theorem processFailingJob_spec (m d : Nat) :
    ∀ k r, m = r + k + 1 →
      processFailingJob m d r =
        (k + 1, (List.range' (r + 1) k).map (fun j => d * j), "failed") := by
  intro k
  induction k with
  | zero =>
    intro r h
    rw [processFailingJob]
    simp [show ¬ (r + 1 < m) by omega]
  | succ k ih =>
    intro r h
    rw [processFailingJob]
    have hlt : r + 1 < m := by omega
    have hrec := ih (r + 1) (by omega)
    simp only [hlt, dite_true, hrec]
    simp [List.range']

/-- C5 (corrected): a job whose processor throws on every invocation reaches
status 'failed' after exactly `maxRetries` processing attempts whenever
`maxRetries ≥ 1` (as in every queue the repository constructs; with
`maxRetries = 0` the job still undergoes one attempt before failing), with
the k-th requeue delayed by `retryDelay * k` ms (linear backoff,
k = 1 .. maxRetries - 1), and after the final attempt the job is 'failed'
and is never dispatched again (the run comprises exactly those attempts). -/
theorem C5_always_throwing_job_fails_after_maxRetries (m d : Nat)
    (h : 1 ≤ m) :
    processFailingJob m d 0 =
      (m, (List.range' 1 (m - 1)).map (fun j => d * j), "failed") := by
  have := processFailingJob_spec m d (m - 1) 0 (by omega)
  simpa [show m - 1 + 1 = m by omega] using this

/-- Witness for C5 (corrected) at `maxRetries = 3`, `retryDelay = 2000` (the
configuration of `documentQueue`): 3 attempts, requeue delays 2000 ms and
4000 ms, final status 'failed'. -/
theorem C5_always_throwing_job_fails_after_maxRetries_witness :
    processFailingJob 3 2000 0 = (3, [2000, 4000], "failed") := by
  have := C5_always_throwing_job_fails_after_maxRetries 3 2000 (by norm_num)
  simpa using this

/-- C5 counterexample: with `maxRetries = 0` the claim as stated demands
'failed' after exactly zero processing attempts, but the code still runs one
attempt (`retries` is incremented to 1, `1 < 0` fails, the job is marked
'failed' at the end of that first attempt). -/
theorem C5_counterexample :
    processFailingJob 0 2000 0 = (1, [], "failed") ∧
    (processFailingJob 0 2000 0).1 ≠ 0 := by
  have h : processFailingJob 0 2000 0 = (1, [], "failed") := by
    rw [processFailingJob]
    simp
  exact ⟨h, by rw [h]; simp⟩

/-- `find?` skips an entry that fails the predicate. -/
theorem find_cons_skip (pred : String × QJob → Bool) (p : String × QJob)
    (l : List (String × QJob)) (h : pred p = false) :
    (p :: l).find? pred = l.find? pred := by
  simp [List.find?_cons, h]

/-- If the key is present, replacing its entries makes the lookup return the
new value. -/
theorem find_map_present (k : String) (v : QJob) :
    ∀ m : List (String × QJob), m.any (fun p => p.1 == k) = true →
      (m.map (fun p => if p.1 == k then (k, v) else p)).find?
        (fun p => p.1 == k) = some (k, v) := by
  intro m
  induction m with
  | nil => simp
  | cons p rest ih =>
    intro h
    by_cases hp : (p.1 == k) = true
    · have hfp : (if (p.1 == k) = true then (k, v) else p) = (k, v) := by
        simp [hp]
      rw [List.map_cons, hfp, List.find?_cons_of_pos]
      simp
    · have hfp : (if (p.1 == k) = true then (k, v) else p) = p := by
        simp [hp]
      simp only [List.any_cons, hp, Bool.false_or] at h
      rw [List.map_cons, hfp,
        find_cons_skip (fun q => q.1 == k) p _ (by simpa using hp)]
      exact ih h

/-- If the key is absent, an appended entry with that key is what the lookup
finds. -/
theorem find_append_absent (k : String) (v : QJob) :
    ∀ m : List (String × QJob), m.any (fun p => p.1 == k) = false →
      ((m ++ [(k, v)]).find? (fun p => p.1 == k)) = some (k, v) := by
  intro m
  induction m with
  | nil => simp
  | cons p rest ih =>
    intro h
    simp only [List.any_cons, Bool.or_eq_false_iff] at h
    rw [List.cons_append, find_cons_skip (fun q => q.1 == k) p _ h.1]
    exact ih h.2

/-- `Map.set` followed by `Map.get` on the same key yields the new value. -/
theorem mapGet_mapSet_self (m : List (String × QJob)) (k : String) (v : QJob) :
    mapGet (mapSet m k v) k = some v := by
  unfold mapGet mapSet
  split
  case isTrue h => rw [find_map_present k v m h]; rfl
  case isFalse h =>
    rw [Bool.not_eq_true] at h
    rw [find_append_absent k v m h]
    rfl

/-- C6 (corrected): calling `add(x, payload)` while a job with id `x` is
already tracked does NOT create a second tracked entry: `jobs` is a
`Map<string, QueueJob>` keyed by id, so `jobs.set(x, job)` overwrites the
existing record with the fresh pending job (the earlier record is
discarded), the total reported by `getStats()` is unchanged, and only the
pending list gains a duplicate occurrence of `x`. -/
theorem C6_duplicate_add_overwrites (mr : Nat) (s : TrackState) (id : String)
    (h : (mapGet s.jobs id).isSome = true) :
    getStatsTotal (addJob mr s id) = getStatsTotal s ∧
    (addJob mr s id).pending = s.pending ++ [id] ∧
    mapGet (addJob mr s id).jobs id =
      some { id := id, status := "pending", retries := 0, maxRetries := mr } := by
  refine ⟨?_, rfl, mapGet_mapSet_self _ _ _⟩
  have hfind : (s.jobs.find? (fun p => p.1 == id)).isSome = true := by
    simpa [mapGet] using h
  have hany : s.jobs.any (fun p => p.1 == id) = true :=
    List.any_eq_true.mpr (List.find?_isSome.mp hfind)
  simp [addJob, getStatsTotal, mapSet, hany]

/-- Witness for C6 (corrected): a queue already tracking a completed job
`"x"`; adding `"x"` again keeps the total at its old value and overwrites
the record with a fresh pending job. -/
theorem C6_duplicate_add_overwrites_witness :
    (mapGet trackX.jobs "x").isSome = true ∧
    (getStatsTotal (addJob 3 trackX "x") = getStatsTotal trackX ∧
      (addJob 3 trackX "x").pending = trackX.pending ++ ["x"] ∧
      mapGet (addJob 3 trackX "x").jobs "x" = some freshJobX) :=
  ⟨by decide, C6_duplicate_add_overwrites 3 trackX "x" (by decide)⟩

/-- C6 counterexample: with the completed job `"x"` already tracked
(state `trackX`, total 1), `add("x", ...)` leaves `getStats().total` at 1
(the claim demands an increase to 2) and the earlier record — status
'completed' — is no longer tracked (the claim demands its preservation). -/
theorem C6_counterexample :
    getStatsTotal (addJob 3 trackX "x") = 1 ∧
    getStatsTotal trackX = 1 ∧
    mapGet (addJob 3 trackX "x").jobs "x" ≠ some jobXCompleted := by
  decide

/-- A job id with no registered `onComplete` listener never produces a
callback invocation, whatever the attempt index and retries counter. -/
theorem runNotify_unregistered (m : Nat) :
    ∀ outs i r, runNotify m outs i r false = [] := by
  intro outs
  induction outs with
  | nil => intro i r; rfl
  | cons ok rest ih => intro i r; simp [runNotify, ih]

/-- C10: for a job with a registered `onComplete` callback, the callback is
invoked exactly once, at the end of the first processing attempt, observing
the status the job has at that moment — in particular 'pending' when the
first attempt threw and retries remained — and since the registration is
then removed, runs without a registration (such as all later retry attempts)
never fire a callback. -/
theorem C10_onComplete_fires_once_on_first_attempt (m : Nat) (ok : Bool)
    (rest : List Bool) :
    runNotify m (ok :: rest) 1 0 true = [(1, (attemptOutcome ok 0 m).1)] ∧
    (∀ outs i r, runNotify m outs i r false = []) ∧
    (ok = false → 1 < m → (attemptOutcome false 0 m).1 = "pending") := by
  refine ⟨?_, runNotify_unregistered m, ?_⟩
  · simp [runNotify, runNotify_unregistered m]
  · intro _ h2
    simp [attemptOutcome, h2]

/-- Witness for C10 at a 3-maxRetries job whose first two attempts throw:
the callback fires once, at attempt 1, observing status 'pending'. -/
theorem C10_onComplete_fires_once_on_first_attempt_witness :
    runNotify 3 [false, false] 1 0 true =
      [(1, (attemptOutcome false 0 3).1)] ∧
    (attemptOutcome false 0 3).1 = "pending" :=
  ⟨(C10_onComplete_fires_once_on_first_attempt 3 false [false]).1,
   (C10_onComplete_fires_once_on_first_attempt 3 false [false]).2.2 rfl
     (by norm_num)⟩

/-- Characterization of the first needsReview variant: true iff an issue
exists or some numeric score is below 0.7. -/
theorem needsReviewV1_iff (issues : List String) (svs : List ScoreVal) :
    needsReviewV1 issues svs = true ↔
      issues ≠ [] ∨ ∃ q : ℚ, ScoreVal.num q ∈ svs ∧ q < 7/10 := by
  unfold needsReviewV1
  rw [Bool.or_eq_true, List.any_eq_true]
  constructor
  · rintro (h | ⟨s, hs, hp⟩)
    · exact Or.inl (List.ne_nil_of_length_pos (of_decide_eq_true h))
    · cases s with
      | num q => exact Or.inr ⟨q, hs, of_decide_eq_true hp⟩
      | null => simp at hp
  · rintro (h | ⟨q, hq, hlt⟩)
    · exact Or.inl (decide_eq_true (List.length_pos.mpr h))
    · exact Or.inr ⟨ScoreVal.num q, hq, decide_eq_true hlt⟩

/-- Characterization of the second needsReview variant: true iff an issue
exists or some NONZERO numeric score is below 0.7 (a score of exactly 0 is
falsy in `score && score < 0.7` and is skipped). -/
theorem needsReviewV2_iff (issues : List String) (svs : List ScoreVal) :
    needsReviewV2 issues svs = true ↔
      issues ≠ [] ∨ ∃ q : ℚ, ScoreVal.num q ∈ svs ∧ q ≠ 0 ∧ q < 7/10 := by
  unfold needsReviewV2
  rw [Bool.or_eq_true, List.any_eq_true]
  constructor
  · rintro (h | ⟨s, hs, hp⟩)
    · exact Or.inl (List.ne_nil_of_length_pos (of_decide_eq_true h))
    · cases s with
      | num q =>
        rw [Bool.and_eq_true] at hp
        exact Or.inr ⟨q, hs, of_decide_eq_true hp.1, of_decide_eq_true hp.2⟩
      | null => simp at hp
  · rintro (h | ⟨q, hq, hne, hlt⟩)
    · exact Or.inl (decide_eq_true (List.length_pos.mpr h))
    · refine Or.inr ⟨ScoreVal.num q, hq, ?_⟩
      rw [Bool.and_eq_true]
      exact ⟨decide_eq_true hne, decide_eq_true hlt⟩

/-- C8 (corrected): needsReview is true iff the validation-issue list is
non-empty or some numeric confidence score is strictly below 0.7, EXCEPT
that the second variant skips a score of exactly 0 (falsy in JS), so there
the score disjunct requires a nonzero score below 0.7. In both variants a
score of exactly 0.69 triggers needsReview and a score of exactly 0.70
(with no validation issues) does not. -/
theorem C8_needsReview_policy (issues : List String) (svs : List ScoreVal) :
    (needsReviewV1 issues svs = true ↔
      issues ≠ [] ∨ ∃ q : ℚ, ScoreVal.num q ∈ svs ∧ q < 7/10) ∧
    (needsReviewV2 issues svs = true ↔
      issues ≠ [] ∨ ∃ q : ℚ, ScoreVal.num q ∈ svs ∧ q ≠ 0 ∧ q < 7/10) ∧
    needsReviewV1 [] [ScoreVal.num (69/100)] = true ∧
    needsReviewV1 [] [ScoreVal.num (70/100)] = false ∧
    needsReviewV2 [] [ScoreVal.num (69/100)] = true ∧
    needsReviewV2 [] [ScoreVal.num (70/100)] = false := by
  refine ⟨needsReviewV1_iff issues svs, needsReviewV2_iff issues svs,
    ?_, ?_, ?_, ?_⟩ <;>
  · simp [needsReviewV1, needsReviewV2]
    norm_num

/-- C8 counterexample: a parsed result with no validation issues and the
single confidence score 0 — which is strictly below 0.7 — does NOT trigger
needsReview in the second variant, refuting the claimed equivalence there. -/
theorem C8_counterexample :
    needsReviewV2 [] [ScoreVal.num 0] = false ∧ (0 : ℚ) < 7/10 := by
  constructor
  · simp [needsReviewV2]
  · norm_num

/-- C1: for every database state whose looked-up document is COMPLETED,
the POST extraction handler answers with the stored ExtractedData row and
performs zero extraction-provider invocations, whatever
`extractDocument` would have done: the short-circuit happens before any
provider call. Stated for requests without `forceModel` (the claim's
premise; the handler checks the status before even consulting that field). -/
theorem C1_completed_short_circuits {ε ρ : Type} (db : ExtractDb ε)
    (doc : DocumentRow) (hdoc : db.document = some doc)
    (hst : doc.status = "COMPLETED") (skip : Bool)
    (extractFn : Option String → Bool → Nat × Except String ρ) :
    postExtract db none skip extractFn =
      (PostResponse.alreadyProcessed db.extractedData, 0) := by
  simp [postExtract, hdoc, hst]

/-- Witness for C1 at the concrete database `dbCompleted` and an
`extractDocument` abstraction that would perform one provider call. -/
theorem C1_completed_short_circuits_witness :
    postExtract dbCompleted none false
        (fun _ _ => (1, Except.ok "fresh-result")) =
      (PostResponse.alreadyProcessed dbCompleted.extractedData, 0) :=
  C1_completed_short_circuits dbCompleted docCompleted rfl rfl false
    (fun _ _ => (1, Except.ok "fresh-result"))

/-- C3 (corrected): in both variants, any failure of the pipeline body
(i.e. any failure after the initial PREPROCESSING transition) makes
`extractDocument` append the catch-clause update as the final document
update and rethrow exactly the failing error; that final update sets
status FAILED and the completion timestamp in both variants, but only the
SECOND variant persists the errorMessage string — the first variant's catch
clause writes no `errorMessage` field. -/
theorem C3_failure_marks_failed_and_rethrows (env : EnvV1) (env2 : EnvV2)
    (fm fm2 : Option String) (skip skip2 : Bool) (e e2 : String)
    (h1 : (extractBodyV1 env fm skip).2 = Except.error e)
    (h2 : (extractBodyV2 env2 fm2 skip2).2 = Except.error e2) :
    extractDocumentV1 true env fm skip =
      (updPreprocessing :: (extractBodyV1 env fm skip).1 ++ [updFailedV1],
        Except.error e) ∧
    extractDocumentV2 true env2 fm2 skip2 =
      (updPreprocessing :: (extractBodyV2 env2 fm2 skip2).1 ++ [updFailedV2 e2],
        Except.error e2) ∧
    updFailedV1.status = some "FAILED" ∧
    updFailedV1.setProcessingCompletedAt = true ∧
    updFailedV1.errorMessage = none ∧
    (updFailedV2 e2).status = some "FAILED" ∧
    (updFailedV2 e2).setProcessingCompletedAt = true ∧
    (updFailedV2 e2).errorMessage = some e2 := by
  refine ⟨?_, ?_, rfl, rfl, rfl, rfl, rfl, rfl⟩
  · simp [extractDocumentV1, h1]
  · simp [extractDocumentV2, h2]

/-- Witness for C3 (corrected) at concrete environments whose provider call
fails with "Gemini API error". -/
theorem C3_failure_marks_failed_and_rethrows_witness :
    extractDocumentV1 true envBoomV1 none false =
      (updPreprocessing :: (extractBodyV1 envBoomV1 none false).1 ++
        [updFailedV1], Except.error "Gemini API error") ∧
    (updFailedV2 "Gemini API error").errorMessage = some "Gemini API error" ∧
    updFailedV1.errorMessage = none :=
  ⟨(C3_failure_marks_failed_and_rethrows envBoomV1 envBoomV2 none none
      false false "Gemini API error" "Gemini API error" rfl rfl).1,
   (C3_failure_marks_failed_and_rethrows envBoomV1 envBoomV2 none none
      false false "Gemini API error" "Gemini API error" rfl rfl).2.2.2.2.2.2.2,
   (C3_failure_marks_failed_and_rethrows envBoomV1 envBoomV2 none none
      false false "Gemini API error" "Gemini API error" rfl rfl).2.2.2.2.1⟩

/-- C3 counterexample: in the first variant, at a concrete run whose
provider call fails with "Gemini API error", the final document update of
the failure path carries NO errorMessage field (the claim asserts the
errorMessage string is persisted on every post-PREPROCESSING failure). -/
theorem C3_counterexample :
    (extractDocumentV1 true envBoomV1 none false).2 =
      Except.error "Gemini API error" ∧
    (extractDocumentV1 true envBoomV1 none false).1.getLast? =
      some updFailedV1 ∧
    updFailedV1.errorMessage = none ∧
    updFailedV1.status = some "FAILED" := by
  refine ⟨rfl, ?_, rfl, rfl⟩
  rfl

end DocuExtract
